import Mathlib

/-!
Verification of the PRISM package-manager core (manifest parsing and
normalization, variant resolution, glob pattern matching, file
installation/uninstallation, aggregated CLAUDE.md merge/removal, and
archive file collection) against its natural-language specification.

The definitions below are a shallow embedding of the JavaScript sources
`src/core/file-manager.js` and `src/core/manifest-parser.js`.  Strings are
modelled by Lean `String` (a wrapper around `List Char`); dynamic
JavaScript objects are modelled by records whose `Option` fields encode
key presence (`none` = key absent or `undefined`/`null`); JavaScript
falsiness of string values (absent or empty) is modelled explicitly.
Fallible code returns `Except String`.  External collaborators (the `glob`
library, the filesystem) are passed in as explicit function arguments.
-/

namespace Prism

/-! ## Generic string helpers (List Char level)

JavaScript string primitives used by the sources: `indexOf`, `includes`,
`replace` (first occurrence, string pattern), `substring`/slicing. -/

/-- `hasLead t s` is true when the list `s` starts with the list `t`
(the prefix test used to locate substring occurrences). -/
def hasLead : List Char → List Char → Bool
  | [], _ => true
  | _ :: _, [] => false
  | c :: t, d :: s => c == d && hasLead t s

/-- Model of JavaScript `s.indexOf(t)`: index of the first occurrence of
`t` in `s`, `none` when there is no occurrence (JS returns `-1`). -/
def subIndex (t : List Char) : List Char → Option Nat
  | [] => if hasLead t [] then some 0 else none
  | c :: s' => if hasLead t (c :: s') then some 0 else (subIndex t s').map (· + 1)

/-- Model of JavaScript `s.replace(t, r)` with a plain-string pattern `t`:
replaces only the first occurrence of `t`; returns `s` unchanged when `t`
does not occur. -/
def replaceFirst (t r : List Char) : List Char → List Char
  | [] => if hasLead t [] then r else []
  | c :: s' =>
    if hasLead t (c :: s') then r ++ (c :: s').drop t.length
    else c :: replaceFirst t r s'

/-- JavaScript `s.includes(t)` as a Bool. -/
def strIncludes (t s : List Char) : Bool := (subIndex t s).isSome

/-! ## Pattern matcher (file-manager.js `matchesPattern`, lines 248-282)

The source builds a fully anchored regular expression from the glob
pattern: regex metacharacters are escaped (hence literal), `**` becomes
`.*`, `*` becomes `[^/]*`, `?` becomes `[^/]`.  We embed the semantics of
that constructed regex directly: a token list and a backtracking matcher.
JavaScript `.` does not match line terminators, so the `**` token refuses
to consume `\n`, `\r`, U+2028 and U+2029; the negated classes `[^/]`
exclude only the separator. -/

/-- Token of the regex constructed by `matchesPattern`. -/
inductive GTok where
  /-- a literal character (either ordinary or regex-escaped by the source) -/
  | lit (c : Char)
  /-- `?` translated to the class excluding the separator -/
  | one
  /-- `*` translated to a repetition of the class excluding the separator -/
  | star
  /-- `**` translated to a repetition of the regex dot -/
  | dstar
  deriving DecidableEq

/-- The glob-to-regex translation of the source replaces `**` pairs first
(left to right, non-overlapping), then single `*`, then `?`; every other
character ends up matched literally. -/
def tokenizeGlob : List Char → List GTok
  | [] => []
  | '*' :: '*' :: rest => GTok.dstar :: tokenizeGlob rest
  | '*' :: rest => GTok.star :: tokenizeGlob rest
  | '?' :: rest => GTok.one :: tokenizeGlob rest
  | c :: rest => GTok.lit c :: tokenizeGlob rest

/-- JavaScript line terminators, which the regex dot does not match. -/
def lineTerm (c : Char) : Bool :=
  c == '\n' || c == '\r' || c == Char.ofNat 0x2028 || c == Char.ofNat 0x2029

/-- Matching loop for the `[^/]*` regex fragment: consume any run of
non-separator characters, handing every suffix to the continuation. -/
def starLoop (k : List Char → Bool) : List Char → Bool
  | [] => k []
  | d :: s' => k (d :: s') || (!(d == '/') && starLoop k s')

/-- Matching loop for the `.*` regex fragment: consume any run of
non-line-terminator characters, handing every suffix to the continuation. -/
def dstarLoop (k : List Char → Bool) : List Char → Bool
  | [] => k []
  | d :: s' => k (d :: s') || (!lineTerm d && dstarLoop k s')

/-- Anchored matching of the constructed regex against the path. -/
def globMatch : List GTok → List Char → Bool
  | [], s => s.isEmpty
  | GTok.lit c :: ts, s =>
    match s with
    | [] => false
    | d :: s' => c == d && globMatch ts s'
  | GTok.one :: ts, s =>
    match s with
    | [] => false
    | d :: s' => !(d == '/') && globMatch ts s'
  | GTok.star :: ts, s => starLoop (fun s2 => globMatch ts s2) s
  | GTok.dstar :: ts, s => dstarLoop (fun s2 => globMatch ts s2) s

/-- Backslash-to-slash normalization, `p.replace(/\\/g, '/')`. -/
def normalizeSlashes (s : List Char) : List Char :=
  s.map fun c => if c == '\\' then '/' else c

/-- file-manager.js `matchesPattern(filePath, pattern)`: normalize both
arguments, fast-path the patterns `**/*` and `**`, otherwise test the
anchored regex translated from the pattern. -/
def matchesPattern (filePath pattern : String) : Bool :=
  let normalizedPath := normalizeSlashes filePath.toList
  let normalizedPattern := normalizeSlashes pattern.toList
  if normalizedPattern == "**/*".toList || normalizedPattern == "**".toList then true
  else globMatch (tokenizeGlob normalizedPattern) normalizedPath

/-! ## Variants and variant-based filtering

`FMVariant` models a variant value as the file manager sees it: a plain
object whose `include`/`exclude` keys may be absent (`none`). -/

/-- A variant object: description plus optional include/exclude arrays. -/
structure FMVariant where
  description : String
  /-- the JavaScript key `include` (a Lean keyword, hence the underscore) -/
  include_ : Option (List String) := none
  exclude : Option (List String) := none
  deriving DecidableEq

/-- First-match association-list lookup, modelling JavaScript property
access `obj[key]` on an object with string keys in insertion order. -/
def lookupKey (l : List (String × α)) (k : String) : Option α :=
  match l with
  | [] => none
  | (k0, v0) :: rest => if k0 == k then some v0 else lookupKey rest k

/-- manifest-parser.js `resolveVariant(manifest, variantName)`, lines
337-354.  `variants = none` models `manifest.variants` being absent;
`some []` models an empty variants object. -/
def resolveVariant (variants : Option (List (String × FMVariant))) (variantName : String) :
    FMVariant :=
  match variants with
  | none =>
    { description := "Default installation", include_ := some ["**/*"], exclude := some [] }
  | some [] =>
    { description := "Default installation", include_ := some ["**/*"], exclude := some [] }
  | some ((k0, v0) :: rest) =>
    match lookupKey ((k0, v0) :: rest) variantName with
    | some v => v
    | none => v0

/-- file-manager.js `installFiles`, lines 22-31: the variant actually used
by the installer.  `manifest.variants && manifest.variants[variant]`
yields the declared variant when present and otherwise falls back to an
include-everything default. -/
def installVariantConfig (variants : Option (List (String × FMVariant))) (variant : String) :
    FMVariant :=
  let found := match variants with
    | none => none
    | some vs => lookupKey vs variant
  match found with
  | some v => v
  | none =>
    { description := "Default installation - all files"
      include_ := some ["**/*"], exclude := some [] }

/-- Model of Node `path.join(a, b)` for the relative two-segment joins in
this code: concatenation with a single separator (the sources never join
paths containing `.` or `..` segments in the modelled operations). -/
def pathJoin (a b : String) : String :=
  if a == "" then b
  else if b == "" then a
  else if a.toList.getLast? == some '/' then a ++ b
  else a ++ "/" ++ b

/-- file-manager.js `filterFilesByVariant(files, variantConfig, basePath)`,
lines 198-243: keep a file when the project-relative path matches some
include pattern and no exclude pattern. -/
def filterFilesByVariant (files : List String) (variantConfig : FMVariant)
    (basePath : String) : List String :=
  let includePatterns := variantConfig.include_.getD ["**/*"]
  let excludePatterns := variantConfig.exclude.getD []
  files.filter fun file =>
    let projectRelativeFile := pathJoin basePath file
    let normalizedFile : String := ⟨normalizeSlashes projectRelativeFile.toList⟩
    let included := includePatterns.any fun pattern =>
      matchesPattern normalizedFile ⟨normalizeSlashes pattern.toList⟩
    if !included then false
    else
      let excluded := excludePatterns.any fun pattern =>
        matchesPattern normalizedFile ⟨normalizeSlashes pattern.toList⟩
      if excluded then false else true

/-! ## Destination path resolution (file-manager.js lines 668-673)

`resolveDestPath(destPattern, manifest)` chains three JavaScript
`String.replace` calls with plain-string patterns, so each call replaces
only the first occurrence of its token.  `installStructureItem` (line 55)
invokes it with the partial object `{ name: packageName }`, while
`uninstallFiles` (line 649) passes the full manifest; `DestManifest`
models whichever object is passed, with `none` for an absent field. -/

/-- The object passed as the `manifest` argument of `resolveDestPath`. -/
structure DestManifest where
  name : String
  version : Option String := none
  author : Option String := none
  deriving DecidableEq

/-- The placeholder token for the package name. -/
def nameTok : List Char := "{name}".toList

/-- The placeholder token for the package version. -/
def versionTok : List Char := "{version}".toList

/-- The placeholder token for the package author. -/
def authorTok : List Char := "{author}".toList

/-- file-manager.js `resolveDestPath`: substitute `{name}`, then
`{version}` (empty string when the field is missing), then `{author}`. -/
def resolveDestPath (destPattern : String) (manifest : DestManifest) : String :=
  let s1 := replaceFirst nameTok manifest.name.toList destPattern.toList
  let s2 := replaceFirst versionTok (manifest.version.getD "").toList s1
  let s3 := replaceFirst authorTok (manifest.author.getD "").toList s2
  ⟨s3⟩

/-- The destination computed by `installStructureItem` (line 55): the
source passes only `{ name: packageName }` to `resolveDestPath`. -/
def installStructureItemDest (dest packageName : String) : String :=
  resolveDestPath dest { name := packageName }

/-- The destination computed by `uninstallFiles` (line 649): the source
passes the full normalized manifest to `resolveDestPath`. -/
def uninstallDest (dest : String) (name version author : String) : String :=
  resolveDestPath dest { name := name, version := some version, author := some author }

/-! ## Aggregated CLAUDE.md operations (file-manager.js lines 96-160 and 319-347)

Both operations are pure transformations of the document content; the
surrounding file I/O is external.  `appendToClaudeMd` models the merge
performed on the existing document text, `removeFromClaudeMd` the
marker-block excision performed by uninstall. -/

/-- file-manager.js `appendToClaudeMd` content merge: when the package
marker is already present, excise from the first occurrence of the start
marker to the end of the first occurrence of the end marker, then append
a fresh block framed by a leading and a trailing newline. -/
def appendToClaudeMd (existingContent packageName packageContent : String) : String :=
  let cs := existingContent.toList
  let packageMarker := ("# Package: " ++ packageName).toList
  let endMarker := ("# End Package: " ++ packageName).toList
  let existing2 : List Char :=
    if strIncludes packageMarker cs then
      match subIndex packageMarker cs, subIndex endMarker cs with
      | some startIndex, some endIndex =>
        cs.take startIndex ++ cs.drop (endIndex + endMarker.length)
      | _, _ => cs
    else cs
  ⟨existing2 ++ ('\n' :: packageMarker) ++ ('\n' :: packageContent.toList)
    ++ ('\n' :: endMarker) ++ ['\n']⟩

/-- file-manager.js `removeFromClaudeMd(packageName)` applied to the
document content: excise from the first occurrence of the start marker
(including one newline immediately before it) to the end of the first
occurrence of the end marker; leave the document unchanged when either
marker is missing. -/
def removeFromClaudeMd (packageName content : String) : String :=
  let cs := content.toList
  let startMarker := ("# Package: " ++ packageName).toList
  let endMarker := ("# End Package: " ++ packageName).toList
  match subIndex startMarker cs, subIndex endMarker cs with
  | some startIndex, some endIndex =>
    let actualStart :=
      if 0 < startIndex && cs.getD (startIndex - 1) ' ' == '\n'
      then startIndex - 1 else startIndex
    ⟨cs.take actualStart ++ cs.drop (endIndex + endMarker.length)⟩
  | _, _ => content

/-! ## Manifest model and normalization (manifest-parser.js)

The parser receives a dynamic document (the YAML layer is external).  The
raw value space the sources actually traverse is modelled by the records
below; every `Option` field encodes key presence.  `normalize` both
consumes and produces these records, mirroring the fact that in the
source the normalized manifest is a plain object that can be fed back to
`normalize` (the idempotence property of the specification). -/

/-- JavaScript falsiness of an optional string value: absent (or
`undefined`/`null`) and the empty string are falsy. -/
def jsFalsyStr : Option String → Bool
  | none => true
  | some s => s == ""

/-- JavaScript `a || b` on optional string values. -/
def jsOrStr (a b : Option String) : Option String :=
  match a with
  | some s => if s == "" then b else some s
  | none => b

/-- JavaScript `a || d` with a (truthy, non-empty) string default. -/
def jsStrD (a : Option String) (d : String) : String :=
  match a with
  | some s => if s == "" then d else s
  | none => d

/-- A structure item as it appears in the raw document or after
normalization: either a plain string or an object.  The object fields
mirror the keys read by `normalizeStructureItem` (lines 126-145); `from_`
and `to` model the alternative spellings `from`/`to`/`destination`.
Values that are neither strings nor objects (which the source rejects
with a ValidationError) are outside this value space. -/
inductive RawStructValue where
  | str (s : String)
  | obj (source from_ dest to_ destination pattern : Option String)
        (exclude : Option (List String))
  deriving DecidableEq

/-- A structure entry value: an array of items or a single (non-array)
item, as distinguished by `normalizeStructure` (lines 111-124). -/
inductive RawStructEntry where
  | arr (items : List RawStructValue)
  | single (item : RawStructValue)
  deriving DecidableEq

/-- A raw variant object; `include`/`exclude` are `some` exactly when the
key holds an array (`Array.isArray`). -/
structure RawVariant where
  description : Option String := none
  /-- the JavaScript key `include` (a Lean keyword, hence the underscore) -/
  include_ : Option (List String) := none
  exclude : Option (List String) := none
  deriving DecidableEq

/-- A system dependency: plain string or object (lines 199-219). -/
inductive RawSysDep where
  | str (s : String)
  | obj (name : Option String) (required : Option Bool) (version install : Option String)
  deriving DecidableEq

/-- The `dependencies.system` value: an array or a single dependency. -/
inductive RawSysEntry where
  | arr (deps : List RawSysDep)
  | single (dep : RawSysDep)
  deriving DecidableEq

/-- The `dependencies` object (lines 175-197). -/
structure RawDependencies where
  system : Option RawSysEntry := none
  prism : Option (List (String × String)) := none
  deriving DecidableEq

/-- The manifest document after the external YAML parse, and equally the
shape of a normalized manifest.  `struct` models the JavaScript key
`structure` (a Lean keyword). -/
structure RawManifest where
  name : Option String := none
  version : Option String := none
  description : Option String := none
  author : Option String := none
  license : Option String := none
  repository : Option String := none
  homepage : Option String := none
  keywords : Option (List String) := none
  claudeCode : Option (List (String × String)) := none
  /-- the JavaScript key `structure` (a Lean keyword, hence `struct`) -/
  struct : Option (List (String × RawStructEntry)) := none
  variants : Option (List (String × RawVariant)) := none
  dependencies : Option RawDependencies := none
  hooks : Option (List (String × String)) := none
  ignore : Option (List String) := none
  deriving DecidableEq

/-- Error-propagating map, modelling a JavaScript loop that may throw. -/
def mapExcept (f : α → Except String β) : List α → Except String (List β)
  | [] => .ok []
  | x :: xs => do
    let y ← f x
    let ys ← mapExcept f xs
    .ok (y :: ys)

/-- Lowercase letter test for the identifier patterns of the source. -/
def isLowerAlpha (c : Char) : Bool := 'a' ≤ c && c ≤ 'z'

/-- Digit test for the identifier patterns of the source. -/
def isDigitCh (c : Char) : Bool := '0' ≤ c && c ≤ '9'

/-- The package-name pattern `/^[a-z0-9-_]+$/` (line 53). -/
def nameOk (s : String) : Bool :=
  !s.toList.isEmpty &&
    s.toList.all fun c => isLowerAlpha c || isDigitCh c || c == '-' || c == '_'

/-- The variant-name pattern `/^[a-z][a-z0-9-]*$/` (line 161). -/
def variantNameOk (s : String) : Bool :=
  match s.toList with
  | [] => false
  | c :: rest =>
    isLowerAlpha c && rest.all fun d => isLowerAlpha d || isDigitCh d || d == '-'

/-- Model of the external semver library `valid()`: three dot-separated
numeric components without leading zeros, an optional dot-separated
prerelease (alphanumeric/hyphen identifiers, numeric ones without leading
zeros), an optional build suffix.  The claims below only exercise it on
plainly valid versions such as `1.0.0`. -/
def semverNumericOk (part : List Char) : Bool :=
  !part.isEmpty && part.all isDigitCh && (part.length == 1 || part.headD '0' != '0')

/-- Identifier test for prerelease/build components. -/
def semverIdentOk (part : List Char) : Bool :=
  !part.isEmpty && part.all fun c =>
    isLowerAlpha c || isDigitCh c || c == '-' || ('A' ≤ c && c ≤ 'Z')

/-- Split a character list at every occurrence of the separator. -/
def splitOnCh (sep : Char) (s : List Char) : List (List Char) :=
  match s with
  | [] => [[]]
  | c :: rest =>
    let r := splitOnCh sep rest
    if c == sep then [] :: r
    else match r with
      | [] => [[c]]
      | g :: gs => (c :: g) :: gs

/-- Split at the first occurrence of the separator, when present. -/
def splitFirstCh (sep : Char) (s : List Char) : Option (List Char × List Char) :=
  match s with
  | [] => none
  | c :: rest =>
    if c == sep then some ([], rest)
    else (splitFirstCh sep rest).map fun p => (c :: p.1, p.2)

/-- Model of `semver.valid(version)` as a Bool. -/
def semverValid (version : String) : Bool :=
  let s := version.toList
  let (core, build) := match splitFirstCh '+' s with
    | some (a, b) => (a, some b)
    | none => (s, none)
  let (nums, pre) := match splitFirstCh '-' core with
    | some (a, b) => (a, some b)
    | none => (core, none)
  let numParts := splitOnCh '.' nums
  (numParts.length == 3 && numParts.all semverNumericOk) &&
    (match pre with
     | none => true
     | some p => (splitOnCh '.' p).all fun part =>
        semverIdentOk part && (!part.all isDigitCh || semverNumericOk part)) &&
    (match build with
     | none => true
     | some b => (splitOnCh '.' b).all semverIdentOk)

/-- Model of the external `semver.validRange()`.  The range grammar is
wide and no claim depends on a range being rejected, so the model accepts
every string. -/
def semverValidRange (_range : String) : Bool := true

/-- manifest-parser.js `normalizeStructureItem` (lines 126-145).  A string
item becomes an object with only `source` and `dest` keys; an object item
gets `source`/`dest` from the alternative keys with JavaScript `||`, a
`pattern` defaulted to `**/*` and an `exclude` defaulted to `[]`.  (The
throw for a value that is neither string nor object is outside the
modelled value space.) -/
def normalizeStructureItem : RawStructValue → RawStructValue
  | .str s => .obj (some s) none (some s) none none none none
  | .obj source from_ dest to_ destination pattern exclude =>
    .obj (jsOrStr source from_) none (jsOrStr dest (jsOrStr to_ destination)) none none
      (some (jsStrD pattern "**/*")) (some (exclude.getD []))

/-- manifest-parser.js `normalizeStructure` (lines 111-124): each entry
value becomes an array of normalized items. -/
def normalizeStructure (st : List (String × RawStructEntry)) :
    List (String × RawStructEntry) :=
  st.map fun entry =>
    (entry.1,
      RawStructEntry.arr
        (match entry.2 with
         | .arr items => items.map normalizeStructureItem
         | .single item => [normalizeStructureItem item]))

/-- manifest-parser.js `normalizeVariants` (lines 147-173): an empty (or
absent) variants map becomes the synthetic `default` variant, whose
object carries no `exclude` key; otherwise each variant name is checked
against the variant-name pattern and description/include/exclude are
defaulted. -/
def normalizeVariants (variants : List (String × RawVariant)) :
    Except String (List (String × RawVariant)) :=
  if variants.isEmpty then
    .ok [("default", { description := some "Default installation",
                       include_ := some ["**/*"] })]
  else
    mapExcept (fun nv =>
      if !variantNameOk nv.1 then
        .error ("Invalid variant name: " ++ nv.1 ++
          ". Must start with letter and contain only lowercase letters, numbers, and hyphens.")
      else
        .ok (nv.1,
          { description := some (jsStrD nv.2.description (nv.1 ++ " variant"))
            include_ := some (nv.2.include_.getD ["**/*"])
            exclude := some (nv.2.exclude.getD []) })) variants

/-- manifest-parser.js `normalizeSystemDep` (lines 199-219). -/
def normalizeSystemDep : RawSysDep → RawSysDep
  | .str s => .obj (some s) (some true) none none
  | .obj name required version install =>
    .obj name (some (required != some false)) (jsOrStr version none) (jsOrStr install none)

/-- manifest-parser.js `normalizeDependencies` (lines 175-197): system
dependencies are normalized (array or single), prism dependency ranges
are checked against the semver range model. -/
def normalizeDependencies (d : RawDependencies) : Except String RawDependencies := do
  let system := d.system.map fun e =>
    RawSysEntry.arr
      (match e with
       | .arr deps => deps.map normalizeSystemDep
       | .single dep => [normalizeSystemDep dep])
  let prism ← match d.prism with
    | none => pure none
    | some entries => do
      let checked ← mapExcept (fun nv =>
        if !semverValidRange nv.2 then
          .error ("Invalid version range for dependency " ++ nv.1 ++ ": " ++ nv.2)
        else .ok nv) entries
      pure (some checked)
  .ok { system := system, prism := prism }

/-- The fixed lifecycle hook enumeration (line 222). -/
def validHooks : List String :=
  ["preInstall", "postInstall", "preUninstall", "postUninstall", "preUpdate", "postUpdate"]

/-- manifest-parser.js `normalizeHooks` (lines 221-238); hook values are
strings in the modelled value space, so only the name check can fail. -/
def normalizeHooks (hooks : List (String × String)) :
    Except String (List (String × String)) :=
  mapExcept (fun hs =>
    if !validHooks.contains hs.1 then
      .error ("Unknown hook: " ++ hs.1 ++ ". Valid hooks are: " ++
        String.intercalate ", " validHooks)
    else .ok hs) hooks

/-- manifest-parser.js `normalize` (lines 34-88): required-field, semver
and name checks, then defaulting of every optional section.  `parse` and
`parseYaml` are this function composed with external file reading and
YAML parsing. -/
def normalize (manifest : RawManifest) : Except String RawManifest :=
  if jsFalsyStr manifest.name then
    .error "Missing required field: name"
  else if jsFalsyStr manifest.version then
    .error "Missing required field: version"
  else if jsFalsyStr manifest.description then
    .error "Missing required field: description"
  else if !semverValid (manifest.version.getD "") then
    .error ("Invalid version format: " ++ manifest.version.getD "")
  else if !nameOk (manifest.name.getD "") then
    .error "Package name must contain only lowercase letters, numbers, hyphens, and underscores"
  else
    match normalizeVariants (manifest.variants.getD []) with
    | .error e => .error e
    | .ok variants =>
    match normalizeDependencies (manifest.dependencies.getD {}) with
    | .error e => .error e
    | .ok dependencies =>
    match normalizeHooks (manifest.hooks.getD []) with
    | .error e => .error e
    | .ok hooks =>
    .ok { name := manifest.name
          version := manifest.version
          description := manifest.description
          author := some (jsStrD manifest.author "Unknown")
          license := some (jsStrD manifest.license "MIT")
          repository := jsOrStr manifest.repository none
          homepage := jsOrStr manifest.homepage none
          keywords := some (manifest.keywords.getD [])
          claudeCode := some (manifest.claudeCode.getD [])
          struct := some (normalizeStructure (manifest.struct.getD []))
          variants := some variants
          dependencies := some dependencies
          hooks := some hooks
          ignore := some (manifest.ignore.getD ["node_modules", ".git", ".DS_Store"]) }

/-- The fixed structure-type enumeration (line 247). -/
def validTypes : List String :=
  ["commands", "scripts", "rules", "data", "templates", "agents", "documentation", "claude_config"]

/-- Property access `item.source` on a structure item value (a JavaScript
string has no such property, hence `none`). -/
def itemSourceKey : RawStructValue → Option String
  | .str _ => none
  | .obj source _ _ _ _ _ _ => source

/-- Property access `item.dest` on a structure item value. -/
def itemDestKey : RawStructValue → Option String
  | .str _ => none
  | .obj _ _ dest _ _ _ _ => dest

/-- Per-item loop of `validateStructure` (lines 254-258). -/
def validateItemList : List RawStructValue → Except String Unit
  | [] => .ok ()
  | item :: rest =>
    if jsFalsyStr (itemSourceKey item) || jsFalsyStr (itemDestKey item) then
      .error "Structure item missing source or dest"
    else validateItemList rest

/-- Iterating `for (const item of items)` over an entry value: an array
iterates its items; a string iterates characters (each failing the source
check unless the string is empty); a plain object is not iterable. -/
def validateEntryItems : RawStructEntry → Except String Unit
  | .arr items => validateItemList items
  | .single (.str s) => if s == "" then .ok () else .error "Structure item missing source or dest"
  | .single (.obj _ _ _ _ _ _ _) => .error "TypeError: items is not iterable"

/-- Entry loop of `validateStructure` (lines 249-259). -/
def validateStructureEntries : List (String × RawStructEntry) → Except String Unit
  | [] => .ok ()
  | (type, items) :: rest =>
    if !validTypes.contains type then
      .error ("Invalid structure type: " ++ type ++ ". Valid types: " ++
        String.intercalate ", " validTypes)
    else do
      let _ ← validateEntryItems items
      validateStructureEntries rest

/-- manifest-parser.js `validateStructure` (lines 242-260), the first
check performed by `validate(manifest)`: an absent or empty structure
mapping is a ValidationError. -/
def validateStructure (manifest : RawManifest) : Except String Unit :=
  match manifest.struct with
  | none => .error "Package must define file structure"
  | some st =>
    if st.isEmpty then .error "Package must define file structure"
    else validateStructureEntries st

/-! ## Archive file collection (file-manager.js lines 517-619)

`collectPackageFiles` consults two external collaborators: the filesystem
(`pathExists`) and the `glob` library; both are passed as function
arguments.  The JavaScript `Set` accumulating the files preserves
insertion order and deduplicates, modelled by `addUnique`. -/

/-- Insertion-ordered set add: ignore an element already present. -/
def addUnique (l : List String) (x : String) : List String :=
  if l.contains x then l else l ++ [x]

/-- A structure item as consumed by `collectPackageFiles` (only `source`,
`pattern` and `exclude` are read there). -/
structure CollectItem where
  source : String
  pattern : Option String := none
  exclude : Option (List String) := none
  deriving DecidableEq

/-- The manifest fields consumed by `collectPackageFiles`. -/
structure CollectManifest where
  struct : List (String × List CollectItem)
  ignore : Option (List String) := none
  deriving DecidableEq

/-- file-manager.js `collectPackageFiles(sourceDir, manifest)`, lines
579-619: include the manifest file when present, then for every structure
item whose source directory exists the glob results (pattern defaulted to
`**/*`, ignore list the union of the item exclude and the manifest
ignore), prefixed with the item source, then the conventional extra
files.  `globFn dir pattern ignore` models the external `glob` call; the
function returns the collected list and never raises. -/
def collectPackageFiles (globFn : String → String → List String → List String)
    (pathExists : String → Bool) (sourceDir : String) (manifest : CollectManifest) :
    List String :=
  let allFiles : List String :=
    if pathExists (pathJoin sourceDir "prism-package.yaml") then ["prism-package.yaml"] else []
  let allFiles := manifest.struct.foldl (fun acc entry =>
    entry.2.foldl (fun acc item =>
      let sourcePath := pathJoin sourceDir item.source
      if !pathExists sourcePath then acc
      else
        let files := globFn sourcePath (jsStrD item.pattern "**/*")
          ((item.exclude.getD []) ++ (manifest.ignore.getD []))
        files.foldl (fun acc file => addUnique acc (pathJoin item.source file)) acc) acc)
    allFiles
  ["README.md", "LICENSE", "CHANGELOG.md"].foldl
    (fun acc f => if pathExists (pathJoin sourceDir f) then addUnique acc f else acc) allFiles

/-- file-manager.js `createPackage(sourceDir, outputPath, manifest)`,
lines 517-574, up to the external archive creation: missing source
directory and empty collection are errors; otherwise the archive is
created from exactly the collected entries, which the model returns. -/
def createPackage (globFn : String → String → List String → List String)
    (pathExists : String → Bool) (sourceDir _outputPath : String)
    (manifest : Option CollectManifest) : Except String (List String) :=
  if !pathExists sourceDir then
    .error ("Source directory does not exist: " ++ sourceDir)
  else
    let manifest := match manifest with
      | some m => m
      | none =>
        { struct := [("commands", [{ source := "commands/", pattern := some "**/*" }]),
                     ("scripts", [{ source := "scripts/", pattern := some "**/*" }])]
          ignore := some [".git", "node_modules", "*.log"] }
    let files := collectPackageFiles globFn pathExists sourceDir manifest
    if files.isEmpty then .error "No files found to package"
    else .ok files

deriving instance DecidableEq for Except

/-! ## Concrete documents and manifests used by the claim theorems -/

/-- An aggregated CLAUDE.md holding the blocks of the two installed
packages `foo-bar` and `foo` (in that order), exactly as the merge
algorithm frames them. -/
def twoBlockDoc : String :=
  "B\n\n# Package: foo-bar\nX\n# End Package: foo-bar\n\n# Package: foo\nY\n# End Package: foo\n"

/-- A valid raw manifest declaring one structure item in the simple
string form and no variants. -/
def C2manifest : RawManifest :=
  { name := some "pkg", version := some "1.0.0", description := some "d"
    struct := some [("commands", RawStructEntry.arr [RawStructValue.str "commands/"])] }

/-- The result of normalizing `C2manifest` once: the string-form item has
only `source` and `dest`, and the synthetic `default` variant has no
`exclude` key. -/
def C2once : RawManifest :=
  { name := some "pkg", version := some "1.0.0", description := some "d"
    author := some "Unknown", license := some "MIT"
    keywords := some [], claudeCode := some []
    struct := some [("commands", RawStructEntry.arr
      [RawStructValue.obj (some "commands/") none (some "commands/") none none none none])]
    variants := some [("default",
      { description := some "Default installation", include_ := some ["**/*"] })]
    dependencies := some {}, hooks := some []
    ignore := some ["node_modules", ".git", ".DS_Store"] }

/-- The result of normalizing `C2manifest` twice: the second pass adds
`pattern` and `exclude` to the item and `exclude` to the variant. -/
def C2twice : RawManifest :=
  { C2once with
    struct := some [("commands", RawStructEntry.arr
      [RawStructValue.obj (some "commands/") none (some "commands/") none none
        (some "**/*") (some [])])]
    variants := some [("default",
      { description := some "Default installation", include_ := some ["**/*"]
        exclude := some [] })] }

/-- A raw manifest with valid identity fields and no `structure` mapping. -/
def C4manifest : RawManifest :=
  { name := some "pkg", version := some "1.0.0", description := some "d" }

/-- The normalized form of `C4manifest`: normalization succeeds and
yields an empty structure mapping. -/
def C4normalized : RawManifest :=
  { name := some "pkg", version := some "1.0.0", description := some "d"
    author := some "Unknown", license := some "MIT"
    keywords := some [], claudeCode := some []
    struct := some []
    variants := some [("default",
      { description := some "Default installation", include_ := some ["**/*"] })]
    dependencies := some {}, hooks := some []
    ignore := some ["node_modules", ".git", ".DS_Store"] }

/-! ## Helper lemmas -/

/-- A list always starts with itself. -/
theorem hasLead_append_self (t b : List Char) : hasLead t (t ++ b) = true := by
  induction t with
  | nil => rfl
  | cons c t ih => simp [hasLead, ih]

/-- JavaScript `replace` on a string of the form `a ++ t ++ b` replaces
exactly the distinguished occurrence of `t` when no occurrence starts
inside `a`. -/
theorem replaceFirst_append (t r : List Char) (ht : t ≠ []) :
    ∀ a b : List Char,
      (∀ i, i < a.length → hasLead t (a.drop i ++ (t ++ b)) = false) →
      replaceFirst t r (a ++ (t ++ b)) = a ++ (r ++ b) := by
  intro a
  induction a with
  | nil =>
    intro b _
    obtain ⟨c, t', rfl⟩ : ∃ c t', t = c :: t' := by
      cases t with
      | nil => exact absurd rfl ht
      | cons c t' => exact ⟨c, t', rfl⟩
    show replaceFirst (c :: t') r (c :: (t' ++ b)) = r ++ b
    rw [replaceFirst]
    have : hasLead (c :: t') (c :: (t' ++ b)) = true := hasLead_append_self (c :: t') b
    rw [this]
    simp
  | cons d a ih =>
    intro b h
    have h0 : hasLead t (d :: (a ++ (t ++ b))) = false := by
      have := h 0 (Nat.succ_pos a.length)
      simpa using this
    show replaceFirst t r (d :: (a ++ (t ++ b))) = d :: (a ++ (r ++ b))
    rw [replaceFirst, h0]
    simp only [Bool.false_eq_true, if_false]
    rw [ih b fun i hi => by simpa using h (i + 1) (Nat.succ_lt_succ hi)]

/-- JavaScript `replace` leaves a string without any occurrence of the
pattern unchanged. -/
theorem replaceFirst_not_found (t r : List Char) :
    ∀ s : List Char, subIndex t s = none → replaceFirst t r s = s := by
  intro s
  induction s with
  | nil =>
    intro h
    rw [subIndex] at h
    rw [replaceFirst]
    split at h
    · exact absurd h (by simp)
    · simp_all
  | cons c s' ih =>
    intro h
    rw [subIndex] at h
    split at h
    · exact absurd h (by simp)
    · rw [replaceFirst]
      simp_all

/-- Backslash normalization does not introduce line terminators. -/
theorem lineTerm_slashmap (c : Char) :
    lineTerm (if c == '\\' then '/' else c) = lineTerm c := by
  by_cases hc : c == '\\'
  · have hc' : c = '\\' := by exact eq_of_beq hc
    subst hc'
    decide
  · simp [hc]

/-- Slash normalization of a line-terminator-free list stays free of
line terminators. -/
theorem normalizeSlashes_no_lineTerm :
    ∀ l : List Char, l.all (fun c => !lineTerm c) = true →
      (normalizeSlashes l).all (fun c => !lineTerm c) = true := by
  intro l
  induction l with
  | nil => intro _; rfl
  | cons c l ih =>
    intro h
    simp only [List.all_cons, Bool.and_eq_true] at h
    simp only [normalizeSlashes, List.map_cons, List.all_cons, Bool.and_eq_true]
    refine ⟨by rw [lineTerm_slashmap]; exact h.1, ih h.2⟩

/-- The `.*` loop followed by the literal regex `/b` accepts every
line-terminator-free middle followed by `/b`. -/
theorem dstarLoop_to_slash_b :
    ∀ l : List Char, l.all (fun c => !lineTerm c) = true →
      dstarLoop (fun s2 => globMatch [GTok.lit '/', GTok.lit 'b'] s2) (l ++ ['/', 'b'])
        = true := by
  intro l
  induction l with
  | nil => intro _; rfl
  | cons c l ih =>
    intro h
    simp only [List.all_cons, Bool.and_eq_true] at h
    show (globMatch [GTok.lit '/', GTok.lit 'b'] (c :: (l ++ ['/', 'b'])) ||
      (!lineTerm c && dstarLoop (fun s2 => globMatch [GTok.lit '/', GTok.lit 'b'] s2)
        (l ++ ['/', 'b']))) = true
    rw [ih h.2, h.1]
    simp

/-- The `.*` loop at the end of the regex accepts every
line-terminator-free remainder. -/
theorem dstarLoop_to_empty :
    ∀ l : List Char, l.all (fun c => !lineTerm c) = true →
      dstarLoop (fun s2 => globMatch ([] : List GTok) s2) l = true := by
  intro l
  induction l with
  | nil => intro _; rfl
  | cons c l ih =>
    intro h
    simp only [List.all_cons, Bool.and_eq_true] at h
    show (globMatch ([] : List GTok) (c :: l) ||
      (!lineTerm c && dstarLoop (fun s2 => globMatch ([] : List GTok) s2) l)) = true
    rw [ih h.2, h.1]
    simp

/-! ## Claim theorems -/

/-- Claim C1: the specification requires that uninstalling a package
never touches a block belonging to a different package name, even when
the names share a common prefix.  The code violates this: because the
markers are located with plain `indexOf`, the marker `# Package: foo` is
found at the start of `# Package: foo-bar`.  On a document holding the
block of `foo-bar` before the block of `foo`, `removeFromClaudeMd "foo"`
deletes the `foo-bar` block (leaving a stray `-bar` fragment) and keeps
the `foo` block, instead of removing the `foo` block and leaving the
`foo-bar` block byte-identical. -/
theorem removeFromClaudeMd_prefix_collision :
    removeFromClaudeMd "foo" twoBlockDoc
        = "B\n-bar\n\n# Package: foo\nY\n# End Package: foo\n" ∧
    removeFromClaudeMd "foo" twoBlockDoc
        ≠ "B\n\n# Package: foo-bar\nX\n# End Package: foo-bar\n" ∧
    strIncludes "# End Package: foo-bar".toList (removeFromClaudeMd "foo" twoBlockDoc).toList
        = false := by decide

/-- Claim C2: the specification requires `normalize` to be idempotent on
valid manifests.  The code violates this on exactly the cases the claim
singles out: normalizing a manifest with a string-form structure item and
no variants succeeds, but a second normalization adds the defaulted
`pattern` and `exclude` keys to the item and the `exclude` key to the
synthetic `default` variant, so the two results differ. -/
theorem normalize_not_idempotent :
    normalize C2manifest = Except.ok C2once ∧
    normalize C2once = Except.ok C2twice ∧
    C2once ≠ C2twice := by decide

/-- Claim C3, counterexample: in `matchesPattern` the `**` token does not
cover the zero-segment case, because the slashes written around it are
matched literally: `a/**/b` rejects `a/b`, and `a/**` rejects `a`. -/
theorem matchesPattern_zero_segment_fails :
    matchesPattern "a/b" "a/**/b" = false ∧ matchesPattern "a" "a/**" = false := by decide

/-- Claim C3, amended: `**` is translated to the regex `.*`, which
matches any possibly-empty character sequence without line terminators,
while the separators adjacent to `**` in the pattern remain literal.
Hence `a/**/b` matches every path of the form `a/<mid>/b` (one or more
segments, e.g. `a/x/b`, `a/x/y/b`, and also `a//b`), and `a/**` matches
every path of the form `a/<mid>` — but neither matches the zero-segment
paths `a/b` respectively `a` of the original claim. -/
theorem matchesPattern_dstar_middle (mid : List Char)
    (h : mid.all (fun c => !lineTerm c) = true) :
    matchesPattern ⟨'a' :: '/' :: (mid ++ ['/', 'b'])⟩ "a/**/b" = true ∧
    matchesPattern ⟨'a' :: '/' :: mid⟩ "a/**" = true := by
  have hm := normalizeSlashes_no_lineTerm mid h
  have hsplit : normalizeSlashes (mid ++ ['/', 'b']) = normalizeSlashes mid ++ ['/', 'b'] := by
    simp only [normalizeSlashes, List.map_append]
    rfl
  constructor
  · show globMatch [GTok.lit 'a', GTok.lit '/', GTok.dstar, GTok.lit '/', GTok.lit 'b']
      ('a' :: '/' :: normalizeSlashes (mid ++ ['/', 'b'])) = true
    rw [hsplit]
    show (('a' == 'a') && (('/' == '/') &&
      dstarLoop (fun s2 => globMatch [GTok.lit '/', GTok.lit 'b'] s2)
        (normalizeSlashes mid ++ ['/', 'b']))) = true
    rw [dstarLoop_to_slash_b (normalizeSlashes mid) hm]
    rfl
  · show globMatch [GTok.lit 'a', GTok.lit '/', GTok.dstar]
      ('a' :: '/' :: normalizeSlashes mid) = true
    show (('a' == 'a') && (('/' == '/') &&
      dstarLoop (fun s2 => globMatch ([] : List GTok) s2) (normalizeSlashes mid))) = true
    rw [dstarLoop_to_empty (normalizeSlashes mid) hm]
    rfl

/-- Claim C3, witness for the amended theorem at the two-segment middle
`x/y`: `a/x/y/b` matches `a/**/b` and `a/x/y` matches `a/**`. -/
theorem matchesPattern_dstar_middle_witness :
    matchesPattern ⟨'a' :: '/' :: ("x/y".toList ++ ['/', 'b'])⟩ "a/**/b" = true ∧
    matchesPattern ⟨'a' :: '/' :: "x/y".toList⟩ "a/**" = true :=
  matchesPattern_dstar_middle "x/y".toList (by decide)

/-- Claim C5: the specification requires the install-time destination to
substitute `{name}`, `{version}` and `{author}` with the manifest fields.
The code violates this: `installStructureItem` passes only
`{ name: packageName }` to `resolveDestPath`, so at install time
`{version}` and `{author}` are replaced by the empty string — while
`uninstallFiles` passes the full manifest and substitutes the real
version, so install and uninstall compute different destinations for the
same template.  Unrecognized placeholders are left literally, without
failing. -/
theorem installDest_ignores_manifest_version :
    installStructureItemDest ".claude/{name}/{version}/" "pkg" = ".claude/pkg//" ∧
    uninstallDest ".claude/{name}/{version}/" "pkg" "1.2.3" "al" = ".claude/pkg/1.2.3/" ∧
    installStructureItemDest ".claude/{name}/{version}/" "pkg"
      ≠ uninstallDest ".claude/{name}/{version}/" "pkg" "1.2.3" "al" ∧
    installStructureItemDest ".claude/{unknown}/" "pkg" = ".claude/{unknown}/" := by decide

/-- Claim C6: the specification requires a re-run of install with
identical inputs to leave the destination byte-identical, including the
claude_config merge.  The code violates this for the merge: re-merging
the same package block excises the old block without the surrounding
newlines that the appended block template added, so every re-run grows
the aggregated document by two newline characters. -/
theorem appendToClaudeMd_not_idempotent :
    appendToClaudeMd "B\n" "pkg" "hello" = "B\n\n# Package: pkg\nhello\n# End Package: pkg\n" ∧
    appendToClaudeMd (appendToClaudeMd "B\n" "pkg" "hello") "pkg" "hello"
      = "B\n\n\n\n# Package: pkg\nhello\n# End Package: pkg\n" ∧
    appendToClaudeMd (appendToClaudeMd "B\n" "pkg" "hello") "pkg" "hello"
      ≠ appendToClaudeMd "B\n" "pkg" "hello" := by decide

/-- Claim C4, counterexample: parsing (YAML decode plus `normalize`) does
not fail on a document without a `structure` mapping; it succeeds and
yields a manifest whose structure mapping is empty.  The absent-or-empty
check lives in `validate`/`validateStructure`, which runs separately. -/
theorem normalize_accepts_missing_structure :
    normalize C4manifest = Except.ok C4normalized ∧ C4normalized.struct = some [] := by decide

/-- Claim C4, amended: the ValidationError for an absent or empty
`structure` mapping is raised by `validate` (via `validateStructure`),
not by `parse`/`normalize`: for every raw document with an absent or
empty structure mapping, normalization succeeds with an empty structure
mapping (or fails on some other field), and whenever it succeeds the
subsequent validation fails with exactly this error, so the combined
parse-then-validate pipeline never accepts such a document. -/
theorem validate_rejects_empty_structure (m n : RawManifest)
    (hs : m.struct = none ∨ m.struct = some [])
    (h : normalize m = Except.ok n) :
    validateStructure n = Except.error "Package must define file structure" := by
  have hempty : m.struct.getD [] = [] := by
    rcases hs with hs | hs <;> rw [hs] <;> rfl
  have hstruct : n.struct = some [] := by
    unfold normalize at h
    split at h
    · exact Except.noConfusion h
    split at h
    · exact Except.noConfusion h
    split at h
    · exact Except.noConfusion h
    split at h
    · exact Except.noConfusion h
    split at h
    · exact Except.noConfusion h
    split at h
    · exact Except.noConfusion h
    split at h
    · exact Except.noConfusion h
    split at h
    · exact Except.noConfusion h
    injection h with h2
    rw [← h2]
    simp [hempty, normalizeStructure]
  unfold validateStructure
  rw [hstruct]
  rfl

/-- Claim C4, witness: the concrete manifest without a structure mapping
normalizes successfully and is then rejected by validation. -/
theorem validate_rejects_empty_structure_witness :
    validateStructure C4normalized = Except.error "Package must define file structure" :=
  validate_rejects_empty_structure C4manifest C4normalized (Or.inl rfl) (by rfl)

/-- Claim C7, counterexample: `collectPackageFiles` does not raise a
no-files condition; on a source directory where no file matches any
structure pattern it returns the empty list as an ordinary successful
result (the function has no error outcome at all). -/
theorem collectPackageFiles_returns_empty_success :
    collectPackageFiles (fun _ _ _ => []) (fun p => p == "pkg") "pkg"
      { struct := [("commands", [{ source := "commands/" }])] } = [] := by decide

/-- Claim C7, amended: the no-files condition is raised by the caller
`createPackage`, not by `collectPackageFiles`: whenever the collection
for an existing source directory is empty, `createPackage` fails with the
no-files error before any archive is produced, so packaging never
succeeds with an empty file set. -/
theorem createPackage_errors_on_empty_collect
    (globFn : String → String → List String → List String)
    (pathExists : String → Bool) (sourceDir outputPath : String) (m : CollectManifest)
    (hd : pathExists sourceDir = true)
    (h : collectPackageFiles globFn pathExists sourceDir m = []) :
    createPackage globFn pathExists sourceDir outputPath (some m)
      = Except.error "No files found to package" := by
  simp [createPackage, hd, h]

/-- Claim C7, witness: a concrete empty collection makes `createPackage`
fail with the no-files error. -/
theorem createPackage_errors_on_empty_collect_witness :
    createPackage (fun _ _ _ => []) (fun p => p == "pkg") "pkg" "out.tar.gz"
      (some { struct := [("commands", [{ source := "commands/" }])] })
      = Except.error "No files found to package" :=
  createPackage_errors_on_empty_collect (fun _ _ _ => []) (fun p => p == "pkg")
    "pkg" "out.tar.gz" { struct := [("commands", [{ source := "commands/" }])] }
    (by decide) (by decide)

/-- Claim C8: `resolveVariant` returns the first declared variant (in
insertion order) for every variant name not present in the manifest
variants, and returns the synthetic default variant when the manifest has
no variants at all (absent map or empty map). -/
theorem resolveVariant_unknown_name_first_variant (k0 : String) (v0 : FMVariant)
    (rest : List (String × FMVariant)) (vname : String)
    (h : lookupKey ((k0, v0) :: rest) vname = none) :
    resolveVariant (some ((k0, v0) :: rest)) vname = v0 ∧
    (∀ n, resolveVariant (some []) n =
      { description := "Default installation", include_ := some ["**/*"], exclude := some [] }) ∧
    (∀ n, resolveVariant none n =
      { description := "Default installation", include_ := some ["**/*"], exclude := some [] }) := by
  refine ⟨?_, fun _ => rfl, fun _ => rfl⟩
  simp [resolveVariant, h]

/-- Claim C8, witness: a manifest declaring only the variant `standard`
resolves the unknown name `missing` to that first variant. -/
theorem resolveVariant_unknown_name_first_variant_witness :
    resolveVariant (some [("standard",
      { description := "s", include_ := some ["commands/*"], exclude := some [] })]) "missing"
      = { description := "s", include_ := some ["commands/*"], exclude := some [] } ∧
    (∀ n, resolveVariant (some []) n =
      { description := "Default installation", include_ := some ["**/*"], exclude := some [] }) ∧
    (∀ n, resolveVariant none n =
      { description := "Default installation", include_ := some ["**/*"], exclude := some [] }) :=
  resolveVariant_unknown_name_first_variant "standard"
    { description := "s", include_ := some ["commands/*"], exclude := some [] } [] "missing"
    (by decide)

/-- Claim C9: `installFiles` does not consult `resolveVariant`; for every
variant name not present in the manifest variants it substitutes its own
include-everything fallback `{include: [**/*], exclude: []}`, under which
the variant filter keeps every enumerated file of every structure item —
regardless of what the first declared variant would have selected. -/
theorem installFiles_unknown_variant_installs_all
    (variants : List (String × FMVariant)) (vname : String)
    (h : lookupKey variants vname = none) (files : List String) (basePath : String) :
    installVariantConfig (some variants) vname =
      { description := "Default installation - all files"
        include_ := some ["**/*"], exclude := some [] } ∧
    filterFilesByVariant files (installVariantConfig (some variants) vname) basePath
      = files := by
  have h1 : installVariantConfig (some variants) vname =
      { description := "Default installation - all files"
        include_ := some ["**/*"], exclude := some [] } := by
    simp [installVariantConfig, h]
  refine ⟨h1, ?_⟩
  rw [h1]
  exact List.filter_eq_self.mpr fun a _ => rfl

/-- Claim C9, witness: with a declared `minimal` variant selecting only
core commands, requesting the unknown variant `nope` still keeps every
file. -/
theorem installFiles_unknown_variant_installs_all_witness :
    installVariantConfig (some [("minimal",
      { description := "m", include_ := some ["commands/core/*"], exclude := some [] })]) "nope"
      = { description := "Default installation - all files"
          include_ := some ["**/*"], exclude := some [] } ∧
    filterFilesByVariant ["core/basic.md", "experimental/advanced.md"]
      (installVariantConfig (some [("minimal",
        { description := "m", include_ := some ["commands/core/*"], exclude := some [] })])
        "nope") "commands/"
      = ["core/basic.md", "experimental/advanced.md"] :=
  installFiles_unknown_variant_installs_all
    [("minimal", { description := "m", include_ := some ["commands/core/*"], exclude := some [] })]
    "nope" (by decide) ["core/basic.md", "experimental/advanced.md"] "commands/"

/-- Claim C10: `resolveDestPath` substitutes only the first occurrence of
each placeholder token: for a destination template carrying the `{name}`
token twice (with no earlier stray occurrence inside the leading part,
and no `{version}`/`{author}` occurrence in the substituted result), the
first occurrence becomes the manifest name and the second occurrence
survives as the literal placeholder text. -/
theorem resolveDestPath_replaces_first_occurrence_only
    (a b c : List Char) (m : DestManifest)
    (h1 : ∀ i, i < a.length →
      hasLead nameTok (a.drop i ++ (nameTok ++ (b ++ nameTok ++ c))) = false)
    (h2 : subIndex versionTok (a ++ (m.name.toList ++ (b ++ nameTok ++ c))) = none)
    (h3 : subIndex authorTok (a ++ (m.name.toList ++ (b ++ nameTok ++ c))) = none) :
    resolveDestPath ⟨a ++ (nameTok ++ (b ++ nameTok ++ c))⟩ m
      = ⟨a ++ (m.name.toList ++ (b ++ nameTok ++ c))⟩ := by
  have e1 : replaceFirst nameTok m.name.toList (a ++ (nameTok ++ (b ++ nameTok ++ c)))
      = a ++ (m.name.toList ++ (b ++ nameTok ++ c)) :=
    replaceFirst_append nameTok m.name.toList (by decide) a (b ++ nameTok ++ c) h1
  show (⟨replaceFirst authorTok (m.author.getD "").toList
      (replaceFirst versionTok (m.version.getD "").toList
        (replaceFirst nameTok m.name.toList (a ++ (nameTok ++ (b ++ nameTok ++ c)))))⟩ : String)
    = ⟨a ++ (m.name.toList ++ (b ++ nameTok ++ c))⟩
  rw [e1, replaceFirst_not_found versionTok (m.version.getD "").toList _ h2,
    replaceFirst_not_found authorTok (m.author.getD "").toList _ h3]

/-- Claim C10, witness: the template `.claude/{name}/{name}/` with the
package name `pkg` resolves to `.claude/pkg/{name}/`. -/
theorem resolveDestPath_replaces_first_occurrence_only_witness :
    resolveDestPath ⟨".claude/".toList ++ (nameTok ++ ("/".toList ++ nameTok ++ "/".toList))⟩
      { name := "pkg" }
      = ⟨".claude/".toList ++ ("pkg".toList ++ ("/".toList ++ nameTok ++ "/".toList))⟩ :=
  resolveDestPath_replaces_first_occurrence_only ".claude/".toList "/".toList "/".toList
    { name := "pkg" } (by decide) (by decide) (by decide)

end Prism
